import Mathlib

/-!
Shallow embedding of the trading-metrics core of this repository
(`metric.py`, `data_loader.py`, `segmentation.py`, and the serialization
step of `main.py`).

Numeric model: the Python/pandas float pipeline is embedded over ℚ extended
with the IEEE non-finite sentinels (`Py.nan`, `Py.inf`, `Py.ninf`), so the
NaN-propagation and infinity behaviour the code relies on is explicit.
-/

/-- A Python float value: a finite rational, NaN, +inf or -inf.
`Py.nan` models the not-a-number value pandas produces for the mean of an
empty series; `Py.inf` models `np.inf`. -/
inductive Py where
  | num : ℚ → Py
  | nan : Py
  | inf : Py
  | ninf : Py
deriving DecidableEq, Repr

/-- IEEE multiplication on the embedded float type: NaN absorbs, and an
infinity times zero is NaN. -/
def Py.mul : Py → Py → Py
  | .nan, _ => .nan
  | _, .nan => .nan
  | .num a, .num b => .num (a * b)
  | .inf, .num b => if b = 0 then .nan else if 0 < b then .inf else .ninf
  | .num a, .inf => if a = 0 then .nan else if 0 < a then .inf else .ninf
  | .ninf, .num b => if b = 0 then .nan else if 0 < b then .ninf else .inf
  | .num a, .ninf => if a = 0 then .nan else if 0 < a then .ninf else .inf
  | .inf, .inf => .inf
  | .inf, .ninf => .ninf
  | .ninf, .inf => .ninf
  | .ninf, .ninf => .inf

/-- IEEE subtraction on the embedded float type: NaN absorbs, inf - inf is NaN. -/
def Py.sub : Py → Py → Py
  | .nan, _ => .nan
  | _, .nan => .nan
  | .num a, .num b => .num (a - b)
  | .inf, .inf => .nan
  | .ninf, .ninf => .nan
  | .inf, _ => .inf
  | .ninf, _ => .ninf
  | .num _, .inf => .ninf
  | .num _, .ninf => .inf

/-- Python `abs` on a float: `abs(nan) = nan`, `abs(±inf) = inf`. -/
def Py.abs : Py → Py
  | .num a => .num |a|
  | .nan => .nan
  | .inf => .inf
  | .ninf => .inf

/-- Round-half-to-even to an integer, the tie rule of Python `round`. -/
def roundHalfEven (q : ℚ) : ℤ :=
  if q - ⌊q⌋ < 1 / 2 then ⌊q⌋
  else if 1 / 2 < q - ⌊q⌋ then ⌊q⌋ + 1
  else if ⌊q⌋ % 2 = 0 then ⌊q⌋ else ⌊q⌋ + 1

/-- Round a rational to `n` decimal places (Python `round(q, n)`). -/
def roundDec (n : ℕ) (q : ℚ) : ℚ :=
  (roundHalfEven (q * 10 ^ n) : ℚ) / 10 ^ n

/-- Python `round(x, n)` on a float: NaN and infinities round to themselves. -/
def Py.roundTo (n : ℕ) : Py → Py
  | .num a => .num (roundDec n a)
  | x => x

/-- pandas `Series.mean()`: NaN on an empty series, otherwise the exact
arithmetic mean. -/
def seriesMean (l : List ℚ) : Py :=
  if l.length = 0 then .nan else .num (l.sum / l.length)

/-- The winning subgroup `df[df["pnl"] > 0]["pnl"]` of a pnl column. -/
def winsOf (l : List ℚ) : List ℚ :=
  l.filter (fun x => 0 < x)

/-- The losing subgroup `df[df["pnl"] <= 0]["pnl"]` of a pnl column:
zero-pnl trades fall here. -/
def lossesOf (l : List ℚ) : List ℚ :=
  l.filter (fun x => x ≤ 0)

/-- The Metrics Result record returned by `compute_metrics` in `metric.py`. -/
structure Metrics where
  total_trades : ℕ
  win_rate : Py
  avg_win : Py
  avg_loss : Py
  expectancy : Py
  profit_factor : Py
deriving DecidableEq, Repr

/-- `compute_metrics(df)` from `metric.py`, as a function of the `pnl`
column (the only column it reads). Mirrors the source line by line:
empty input returns `None`; `win_rate` is the mean of the boolean series
`df["pnl"] > 0`; `avg_win` / `avg_loss` are subgroup means (NaN when the
subgroup is empty, `avg_loss` passed through `abs`); `expectancy` is
computed with float arithmetic; `profit_factor` is
`total_profit / total_loss if total_loss != 0 else np.inf`; all fields are
rounded only at the result boundary. -/
def compute_metrics (pnl : List ℚ) : Option Metrics :=
  if pnl.length = 0 then none
  else
    let total_trades := pnl.length
    let win_rate := seriesMean (pnl.map (fun x => if 0 < x then (1 : ℚ) else 0))
    let avg_win := seriesMean (winsOf pnl)
    let avg_loss := Py.abs (seriesMean (lossesOf pnl))
    let expectancy :=
      Py.sub (Py.mul win_rate avg_win)
        (Py.mul (Py.sub (Py.num 1) win_rate) avg_loss)
    let total_profit := (winsOf pnl).sum
    let total_loss := |(lossesOf pnl).sum|
    let profit_factor :=
      if total_loss ≠ 0 then Py.num (total_profit / total_loss) else Py.inf
    some
      { total_trades := total_trades
        win_rate := Py.roundTo 3 win_rate
        avg_win := Py.roundTo 2 avg_win
        avg_loss := Py.roundTo 2 avg_loss
        expectancy := Py.roundTo 2 expectancy
        profit_factor := Py.roundTo 2 profit_factor }

/-- The outcome label of `data_loader.py`:
`"WIN" if x > 0 else "LOSS"`. -/
def outcome (x : ℚ) : String :=
  if 0 < x then "WIN" else "LOSS"

/-- A raw trade row as read from the CSV, before derived fields are added.
`direction` is the string column the loader compares against `"SHORT"`. -/
structure RawTrade where
  entry_price : ℚ
  exit_price : ℚ
  quantity : ℚ
  direction : String
deriving DecidableEq, Repr

/-- A trade row after `load_data` has added the derived fields. -/
structure LoadedTrade where
  entry_price : ℚ
  exit_price : ℚ
  quantity : ℚ
  direction : String
  pnl : ℚ
  return_pct : ℚ
  outcome : String
deriving DecidableEq, Repr

/-- The derived-field computation of `load_data` in `data_loader.py` for one
row: `pnl = (exit_price - entry_price) * quantity`, then `pnl *= -1` on the
rows with `direction == "SHORT"`, then `return_pct = pnl / (entry_price *
quantity)` and the outcome label. Division is exact rational division; the
data contract guarantees positive `entry_price` and `quantity`. -/
def loadRow (r : RawTrade) : LoadedTrade :=
  let pnl0 := (r.exit_price - r.entry_price) * r.quantity
  let pnl := if r.direction = "SHORT" then pnl0 * (-1) else pnl0
  { entry_price := r.entry_price
    exit_price := r.exit_price
    quantity := r.quantity
    direction := r.direction
    pnl := pnl
    return_pct := pnl / (r.entry_price * r.quantity)
    outcome := outcome pnl }

/-- `load_data`, restricted to its derived-field computation over the rows
(parsing of the CSV file itself is outside the core). -/
def load_data (rows : List RawTrade) : List LoadedTrade :=
  rows.map loadRow

/-- A dataframe row as seen by the segmentation engine: its `pnl` and its
categorical cells, keyed by column name. -/
structure Row where
  pnl : ℚ
  cells : List (String × String)
deriving DecidableEq, Repr

/-- Value of a named column on a row (`none` when the cell is absent). -/
def Row.getCol (r : Row) (c : String) : Option String :=
  r.cells.lookup c

/-- A dataframe: its column names and its rows. -/
structure DataFrame where
  cols : List String
  rows : List Row
deriving DecidableEq, Repr

/-- The distinct keys `df.groupby(column_name)` groups by, one per distinct
value of the column over the rows. -/
def groupKeys (df : DataFrame) (c : String) : List (Option String) :=
  (df.rows.map (fun r => r.getCol c)).dedup

/-- `df.groupby(column_name)` from pandas as used by `segment_by_column`:
each distinct value of the column, paired with the rows holding that value. -/
def groupby (df : DataFrame) (c : String) : List (Option String × List Row) :=
  (groupKeys df c).map (fun v => (v, df.rows.filter (fun r => r.getCol c = v)))

/-- `segment_by_column(df, column_name)` from `segmentation.py`: group the
dataframe by the column and apply `compute_metrics` to each group's pnl
column. A `column_name` absent from the dataframe's columns makes pandas
`groupby` raise `KeyError`, modelled as the `Except.error` branch. -/
def segment_by_column (df : DataFrame) (c : String) :
    Except String (List (Option String × Option Metrics)) :=
  if c ∈ df.cols then
    .ok ((groupby df c).map (fun g => (g.1, compute_metrics (g.2.map Row.pnl))))
  else
    .error ("KeyError: " ++ c)

/-- A JSON value as produced by Python `json.dumps` for the report fields the
claims are about. -/
inductive JsonVal where
  | null : JsonVal
  | jnum : ℚ → JsonVal
  | jnan : JsonVal
  | jinf : JsonVal
  | jninf : JsonVal
  | jstr : String → JsonVal
deriving DecidableEq, Repr

/-- How `json.dumps` in `main.py` renders a Python float with its default
`allow_nan=True`: a finite number as a number, and the non-finite floats as
the bare literals `NaN`, `Infinity` and `-Infinity` — never as `null`. -/
def pyToJson : Py → JsonVal
  | .num q => .jnum q
  | .nan => .jnan
  | .inf => .jinf
  | .ninf => .jninf

/-- The win-rate fraction of a pnl column: wins over total. -/
def winRateQ (l : List ℚ) : ℚ := ((winsOf l).length : ℚ) / (l.length : ℚ)

/-- Modelled from the spec: the expectancy contract
`win_rate * avg_win − (1 − win_rate) * avg_loss`, rounded to 2 decimal
places, with an undefined (NaN) result whenever the winner or loser
subgroup mean is undefined. -/
def expectancySpec (l : List ℚ) : Py :=
  match seriesMean (winsOf l), seriesMean (lossesOf l) with
  | .num w, .num lo => .num (roundDec 2 (winRateQ l * w - (1 - winRateQ l) * |lo|))
  | _, _ => .nan

/-- A float is quantized to 2 decimal places: finite values are integer
multiples of 1/100 (non-finite sentinels count trivially). -/
def centQuantized : Py → Prop
  | .num q => (q * 100).den = 1
  | _ => True

/-! Helper lemmas shared by the claim theorems. -/

lemma roundHalfEven_intCast (z : ℤ) : roundHalfEven ((z : ℤ) : ℚ) = z := by
  unfold roundHalfEven
  rw [Int.floor_intCast]
  norm_num

lemma roundDec_eq_self (n : ℕ) (q : ℚ) (z : ℤ) (h : q * 10 ^ n = (z : ℚ)) :
    roundDec n q = q := by
  have hne : (10 : ℚ) ^ n ≠ 0 := by positivity
  unfold roundDec
  rw [h, roundHalfEven_intCast, eq_comm, eq_div_iff hne, ← h]

lemma roundTo_num_eq_self (n : ℕ) (q : ℚ) (z : ℤ) (h : q * 10 ^ n = (z : ℚ)) :
    Py.roundTo n (Py.num q) = Py.num q := by
  simp [Py.roundTo, roundDec_eq_self n q z h]

lemma centQuantized_roundTo (x : Py) : centQuantized (Py.roundTo 2 x) := by
  cases x with
  | num q =>
    show (roundDec 2 q * 100).den = 1
    have h100 : ((10 : ℚ) ^ 2) = 100 := by norm_num
    have hz : roundDec 2 q * 100 = ((roundHalfEven (q * 10 ^ 2) : ℤ) : ℚ) := by
      unfold roundDec
      rw [h100, div_mul_cancel₀ _ (by norm_num : (100 : ℚ) ≠ 0)]
    rw [hz, Rat.den_intCast]
  | nan => trivial
  | inf => trivial
  | ninf => trivial

lemma compute_metrics_nonempty (l : List ℚ) (h : l.length ≠ 0) :
    compute_metrics l = some
      { total_trades := l.length
        win_rate := Py.roundTo 3
          (seriesMean (l.map (fun x => if 0 < x then (1 : ℚ) else 0)))
        avg_win := Py.roundTo 2 (seriesMean (winsOf l))
        avg_loss := Py.roundTo 2 (Py.abs (seriesMean (lossesOf l)))
        expectancy := Py.roundTo 2
          (Py.sub
            (Py.mul (seriesMean (l.map (fun x => if 0 < x then (1 : ℚ) else 0)))
              (seriesMean (winsOf l)))
            (Py.mul
              (Py.sub (Py.num 1)
                (seriesMean (l.map (fun x => if 0 < x then (1 : ℚ) else 0))))
              (Py.abs (seriesMean (lossesOf l)))))
        profit_factor := Py.roundTo 2
          (if |(lossesOf l).sum| ≠ 0
            then Py.num ((winsOf l).sum / |(lossesOf l).sum|)
            else Py.inf) } := by
  simp only [compute_metrics, if_neg h]

lemma sum_indicator_eq_wins_length (l : List ℚ) :
    (l.map (fun x => if 0 < x then (1 : ℚ) else 0)).sum = ((winsOf l).length : ℚ) := by
  induction l with
  | nil => simp [winsOf]
  | cons a t ih =>
    simp only [List.map_cons, List.sum_cons, winsOf, List.filter_cons] at ih ⊢
    by_cases ha : 0 < a
    · have hd : decide (0 < a) = true := by simpa using ha
      rw [hd, if_pos rfl, List.length_cons, ih, if_pos ha]
      push_cast
      ring
    · simp [ha, ih]

lemma seriesMean_indicator (l : List ℚ) (h : l.length ≠ 0) :
    seriesMean (l.map (fun x => if 0 < x then (1 : ℚ) else 0)) =
      Py.num (winRateQ l) := by
  simp [seriesMean, h, sum_indicator_eq_wins_length, winRateQ]

/-! Claim theorems. -/

/-- C4: `compute_metrics` applied to an empty trade set returns the explicit
absent value `none` — not an error, and distinct from every Metrics record,
in particular from a zero-filled one. -/
theorem c4_empty_input_returns_absent :
    compute_metrics ([] : List ℚ) = none ∧
      compute_metrics ([] : List ℚ) ≠ some
        { total_trades := 0, win_rate := Py.num 0, avg_win := Py.num 0,
          avg_loss := Py.num 0, expectancy := Py.num 0,
          profit_factor := Py.num 0 } := by
  constructor
  · rfl
  · decide

/-- C1: a trade is a win exactly when its pnl is strictly positive; every
trade with pnl ≤ 0 (zero included) gets the LOSS outcome label and belongs,
with its full multiplicity, to the losing subgroup `lossesOf` — the group
whose mean `compute_metrics` uses for `avg_loss` and whose sum it uses for
the total loss — and never to the winning subgroup `winsOf` used for
`avg_win` and the total profit. -/
theorem c1_zero_pnl_counts_as_loss (l : List ℚ) (x : ℚ) :
    (outcome x = "WIN" ↔ 0 < x) ∧
      (x ≤ 0 →
        outcome x = "LOSS" ∧ (winsOf l).count x = 0 ∧
          (lossesOf l).count x = l.count x) := by
  constructor
  · by_cases hx : 0 < x <;> simp [outcome, hx]
  · intro hx
    refine ⟨by simp [outcome, not_lt.2 hx], ?_, ?_⟩
    · rw [List.count_eq_zero]
      intro hmem
      exact absurd (by simpa using (List.mem_filter.1 hmem).2) (not_lt.2 hx)
    · exact List.count_filter (by simpa using hx)

/-- Witness for C1 at the pnl column `[100, 0, -30]` and the zero-pnl trade. -/
theorem c1_zero_pnl_counts_as_loss_witness :
    outcome 0 = "LOSS" ∧ (winsOf [100, 0, -30]).count 0 = 0 ∧
      (lossesOf [100, 0, -30]).count 0 = ([100, 0, -30] : List ℚ).count 0 :=
  (c1_zero_pnl_counts_as_loss [100, 0, -30] 0).2 le_rfl

/-- C3 (code bug witness): on a trade set with no losses — a single trade of
pnl +10 — `compute_metrics` stores the float positive infinity in
`profit_factor`, and the `json.dumps` serialization of `main.py` renders it
as the bare `Infinity` literal, not as the `null` sentinel the spec
requires. -/
theorem c3_profit_factor_serializes_as_infinity :
    (compute_metrics [(10 : ℚ)]).map (fun m => pyToJson m.profit_factor) =
        some JsonVal.jinf ∧
      JsonVal.jinf ≠ JsonVal.null := by
  constructor
  · rfl
  · decide

/-- C6 (counterexample): on the all-win trade set `[+10]`, `avg_loss` is the
NaN of an empty-subgroup mean, IEEE arithmetic gives
`(1 - win_rate) * NaN = NaN`, and the returned expectancy is NaN — not
`avg_win = 10` as the claim states. -/
theorem c6_all_win_expectancy_counterexample :
    (compute_metrics [(10 : ℚ)]).map Metrics.expectancy = some Py.nan ∧
      (compute_metrics [(10 : ℚ)]).map Metrics.avg_win = some (Py.num 10) ∧
      (compute_metrics [(10 : ℚ)]).map Metrics.expectancy ≠
        (compute_metrics [(10 : ℚ)]).map Metrics.avg_win := by
  have hlen : ([(10 : ℚ)]).length ≠ 0 := by simp
  have hexp : (compute_metrics [(10 : ℚ)]).map Metrics.expectancy = some Py.nan := rfl
  have havg : (compute_metrics [(10 : ℚ)]).map Metrics.avg_win = some (Py.num 10) := by
    rw [compute_metrics_nonempty _ hlen]
    show some (Py.roundTo 2 (seriesMean (winsOf [10]))) = some (Py.num 10)
    have hwins : winsOf [(10 : ℚ)] = [10] := by norm_num [winsOf]
    have hmean : seriesMean [(10 : ℚ)] = Py.num 10 := by norm_num [seriesMean]
    rw [hwins, hmean, roundTo_num_eq_self 2 10 1000 (by norm_num)]
  refine ⟨hexp, havg, ?_⟩
  rw [hexp, havg]
  simp

/-- C6 (amended): on every non-empty trade set in which every trade has
pnl > 0, the losing subgroup is empty, so `avg_loss` is NaN and the
expectancy returned by `compute_metrics` is the NaN sentinel (the undefined
term is propagated, not treated as a zero contribution). -/
theorem c6_amended_all_win_expectancy_nan (l : List ℚ) (h : l ≠ [])
    (hw : ∀ x ∈ l, 0 < x) :
    (compute_metrics l).map Metrics.expectancy = some Py.nan := by
  have hlen : l.length ≠ 0 := by simpa [List.length_eq_zero] using h
  have hloss : lossesOf l = [] := by
    rw [lossesOf, List.filter_eq_nil_iff]
    intro a ha
    simpa using not_le.2 (hw a ha)
  have hwins : winsOf l = l := by
    rw [winsOf, List.filter_eq_self]
    intro a ha
    simpa using hw a ha
  rw [compute_metrics_nonempty l hlen, seriesMean_indicator l hlen]
  simp only [Option.map_some', hloss, hwins]
  simp [seriesMean, hlen, Py.abs, Py.mul, Py.sub, Py.roundTo]

/-- Witness for the amended C6 at the all-win pnl column `[10]`. -/
theorem c6_amended_all_win_expectancy_nan_witness :
    (compute_metrics [(10 : ℚ)]).map Metrics.expectancy = some Py.nan :=
  c6_amended_all_win_expectancy_nan [10] (by decide) (by decide)

/-- C9: invoking `segment_by_column` with a column name absent from the
dataframe fails fast with the lookup (KeyError) failure, never with a
silently empty map. -/
theorem c9_missing_column_fails_fast (df : DataFrame) (c : String)
    (h : c ∉ df.cols) :
    segment_by_column df c = Except.error ("KeyError: " ++ c) := by
  simp [segment_by_column, h]

/-- Witness for C9: a dataframe whose only column is `trend`, segmented by
the absent column `volatility`. -/
theorem c9_missing_column_fails_fast_witness :
    segment_by_column ⟨["trend"], [⟨10, [("trend", "UP")]⟩]⟩ "volatility" =
      Except.error ("KeyError: " ++ "volatility") :=
  c9_missing_column_fails_fast ⟨["trend"], [⟨10, [("trend", "UP")]⟩]⟩
    "volatility" (by decide)

/-- C7: every record produced by `load_data` carries
`pnl = (exit_price - entry_price) * quantity`, negated exactly when the
direction column equals `"SHORT"`, and
`return_pct = pnl / (entry_price * quantity)`. -/
theorem c7_derived_fields (rows : List RawTrade) (t : LoadedTrade)
    (ht : t ∈ load_data rows) :
    (t.pnl =
        if t.direction = "SHORT"
          then -((t.exit_price - t.entry_price) * t.quantity)
          else (t.exit_price - t.entry_price) * t.quantity) ∧
      t.return_pct = t.pnl / (t.entry_price * t.quantity) := by
  rcases List.mem_map.1 ht with ⟨r, -, rfl⟩
  constructor
  · by_cases hd : r.direction = "SHORT" <;> simp [loadRow, hd]
  · by_cases hd : r.direction = "SHORT" <;> simp [loadRow, hd]

/-- Witness for C7: a SHORT trade entered at 100, exited at 90, quantity 2;
the loader derives pnl +20 and return 10%. -/
theorem c7_derived_fields_witness :
    ((loadRow ⟨100, 90, 2, "SHORT"⟩).pnl =
        if (loadRow ⟨100, 90, 2, "SHORT"⟩).direction = "SHORT"
          then -(((loadRow ⟨100, 90, 2, "SHORT"⟩).exit_price -
                (loadRow ⟨100, 90, 2, "SHORT"⟩).entry_price) *
              (loadRow ⟨100, 90, 2, "SHORT"⟩).quantity)
          else ((loadRow ⟨100, 90, 2, "SHORT"⟩).exit_price -
                (loadRow ⟨100, 90, 2, "SHORT"⟩).entry_price) *
              (loadRow ⟨100, 90, 2, "SHORT"⟩).quantity) ∧
      (loadRow ⟨100, 90, 2, "SHORT"⟩).return_pct =
        (loadRow ⟨100, 90, 2, "SHORT"⟩).pnl /
          ((loadRow ⟨100, 90, 2, "SHORT"⟩).entry_price *
            (loadRow ⟨100, 90, 2, "SHORT"⟩).quantity) :=
  c7_derived_fields [⟨100, 90, 2, "SHORT"⟩] (loadRow ⟨100, 90, 2, "SHORT"⟩)
    (by simp [load_data])

/-- C2: for every non-empty trade set, the profit factor in the Metrics
Result is the non-finite undefined sentinel (the code's `np.inf`) exactly
when the sum of the losing trades' pnl is zero; otherwise it equals the sum
of winning pnl divided by the absolute sum of losing pnl, rounded to 2
decimal places. -/
theorem c2_profit_factor_undefined_iff_zero_losses (l : List ℚ) (h : l ≠ []) :
    ((compute_metrics l).map Metrics.profit_factor = some Py.inf ↔
        (lossesOf l).sum = 0) ∧
      ((lossesOf l).sum ≠ 0 →
        (compute_metrics l).map Metrics.profit_factor =
          some (Py.num (roundDec 2 ((winsOf l).sum / |(lossesOf l).sum|)))) := by
  have hlen : l.length ≠ 0 := by simpa [List.length_eq_zero] using h
  rw [compute_metrics_nonempty l hlen]
  simp only [Option.map_some']
  by_cases hs : (lossesOf l).sum = 0
  · constructor
    · simp [hs, Py.roundTo]
    · intro hc
      exact absurd hs hc
  · have habs : |(lossesOf l).sum| ≠ 0 := fun hh => hs (abs_eq_zero.1 hh)
    constructor
    · simp [habs, hs, Py.roundTo]
    · intro _
      simp [habs, Py.roundTo]

/-- Witness for C2 at the pnl column `[10, -5]`. -/
theorem c2_profit_factor_witness :
    ((compute_metrics [(10 : ℚ), -5]).map Metrics.profit_factor = some Py.inf ↔
        (lossesOf [(10 : ℚ), -5]).sum = 0) ∧
      ((lossesOf [(10 : ℚ), -5]).sum ≠ 0 →
        (compute_metrics [(10 : ℚ), -5]).map Metrics.profit_factor =
          some (Py.num (roundDec 2
            ((winsOf [(10 : ℚ), -5]).sum / |(lossesOf [(10 : ℚ), -5]).sum|)))) :=
  c2_profit_factor_undefined_iff_zero_losses [10, -5] (by decide)

/-- C5: for every non-empty trade set the expectancy returned by
`compute_metrics` equals the spec formula
`win_rate * avg_win − (1 − win_rate) * avg_loss` rounded to 2 decimal
places (`expectancySpec`), and whenever the winner or loser subgroup is
empty the spec value — and hence the returned expectancy — is the NaN
sentinel, never a silently zeroed term. -/
theorem c5_expectancy_matches_spec (l : List ℚ) (h : l ≠ []) :
    (compute_metrics l).map Metrics.expectancy = some (expectancySpec l) ∧
      (winsOf l = [] ∨ lossesOf l = [] → expectancySpec l = Py.nan) := by
  have hlen : l.length ≠ 0 := by simpa [List.length_eq_zero] using h
  constructor
  · rw [compute_metrics_nonempty l hlen, seriesMean_indicator l hlen]
    simp only [Option.map_some']
    by_cases hw : (winsOf l).length = 0 <;> by_cases hl : (lossesOf l).length = 0 <;>
      simp [expectancySpec, seriesMean, hw, hl, Py.mul, Py.sub, Py.abs, Py.roundTo]
  · intro hcase
    rcases hcase with hc | hc
    · simp [expectancySpec, hc, seriesMean]
    · by_cases hw0 : (winsOf l).length = 0 <;>
        simp [expectancySpec, hc, hw0, seriesMean]

/-- Witness for C5 at the scenario-A pnl column `[100, 50, -30, -20]`. -/
theorem c5_expectancy_matches_spec_witness :
    (compute_metrics [(100 : ℚ), 50, -30, -20]).map Metrics.expectancy =
        some (expectancySpec [(100 : ℚ), 50, -30, -20]) ∧
      (winsOf [(100 : ℚ), 50, -30, -20] = [] ∨
          lossesOf [(100 : ℚ), 50, -30, -20] = [] →
        expectancySpec [(100 : ℚ), 50, -30, -20] = Py.nan) :=
  c5_expectancy_matches_spec [100, 50, -30, -20] (by decide)

/-- C10: in every Metrics Result of a non-empty trade set, `avg_win` and
`avg_loss` are exactly the 2-decimal roundings of the winner/loser subgroup
means taken at the result boundary, and the finite values among them are
integer multiples of 1/100. -/
theorem c10_avg_win_loss_rounded_to_cents (l : List ℚ) (h : l ≠ []) :
    (compute_metrics l).map Metrics.avg_win =
        some (Py.roundTo 2 (seriesMean (winsOf l))) ∧
      (compute_metrics l).map Metrics.avg_loss =
        some (Py.roundTo 2 (Py.abs (seriesMean (lossesOf l)))) ∧
      centQuantized (Py.roundTo 2 (seriesMean (winsOf l))) ∧
      centQuantized (Py.roundTo 2 (Py.abs (seriesMean (lossesOf l)))) := by
  have hlen : l.length ≠ 0 := by simpa [List.length_eq_zero] using h
  rw [compute_metrics_nonempty l hlen]
  exact ⟨rfl, rfl, centQuantized_roundTo _, centQuantized_roundTo _⟩

/-- Witness for C10 at the pnl column `[4, -3]`. -/
theorem c10_avg_win_loss_rounded_witness :
    (compute_metrics [(4 : ℚ), -3]).map Metrics.avg_win =
        some (Py.roundTo 2 (seriesMean (winsOf [(4 : ℚ), -3]))) ∧
      (compute_metrics [(4 : ℚ), -3]).map Metrics.avg_loss =
        some (Py.roundTo 2 (Py.abs (seriesMean (lossesOf [(4 : ℚ), -3])))) ∧
      centQuantized (Py.roundTo 2 (seriesMean (winsOf [(4 : ℚ), -3]))) ∧
      centQuantized (Py.roundTo 2 (Py.abs (seriesMean (lossesOf [(4 : ℚ), -3])))) :=
  c10_avg_win_loss_rounded_to_cents [4, -3] (by decide)

lemma count_filter_key {α κ : Type} [DecidableEq α] [DecidableEq κ]
    (f : α → κ) (l : List α) (v : κ) (a : α) :
    (l.filter (fun x => f x = v)).count a = if f a = v then l.count a else 0 := by
  by_cases hfa : f a = v
  · rw [if_pos hfa]
    exact List.count_filter (by simpa using hfa)
  · rw [if_neg hfa, List.count_eq_zero]
    intro hmem
    exact hfa (by simpa using (List.mem_filter.1 hmem).2)

lemma count_flatten_groups {α κ : Type} [DecidableEq α] [DecidableEq κ]
    (f : α → κ) (l : List α) (keys : List κ) (a : α) :
    ((keys.map (fun v => l.filter (fun x => f x = v))).flatten).count a
      = keys.count (f a) * l.count a := by
  induction keys with
  | nil => simp
  | cons v ks ih =>
    simp only [List.map_cons, List.flatten_cons, List.count_append, ih,
      count_filter_key f l v a]
    by_cases hv : f a = v
    · subst hv
      rw [if_pos rfl, List.count_cons_self]
      ring
    · rw [if_neg hv, List.count_cons_of_ne hv]
      ring

lemma countP_groups_mem {α κ : Type} [DecidableEq α] [DecidableEq κ]
    (f : α → κ) (l : List α) (keys : List κ) (a : α) (ha : a ∈ l) :
    (keys.map (fun v => (v, l.filter (fun x => f x = v)))).countP
        (fun g => a ∈ g.2) = keys.count (f a) := by
  induction keys with
  | nil => simp
  | cons v ks ih =>
    simp only [List.map_cons, List.countP_cons, ih]
    by_cases hv : f a = v
    · subst hv
      have hmem : a ∈ l.filter (fun x => f x = f a) :=
        List.mem_filter.2 ⟨ha, by simp⟩
      rw [List.count_cons_self, if_pos (decide_eq_true hmem)]
    · have hmem : a ∉ l.filter (fun x => f x = v) := by
        intro hc
        exact hv (by simpa using (List.mem_filter.1 hc).2)
      rw [List.count_cons_of_ne hv, if_neg (by simpa using hmem), Nat.add_zero]

/-- C8: the grouping `segment_by_column` computes partitions the dataframe's
rows into disjoint groups keyed by exact column-value equality: the
concatenation of all the groups of `groupby` is a permutation — multiset
equality — of the original rows (no row dropped or duplicated), and each
row of the input lies in exactly one group. -/
theorem c8_groupby_partitions (df : DataFrame) (c : String) (r : Row)
    (hr : r ∈ df.rows) :
    (((groupby df c).map Prod.snd).flatten).Perm df.rows ∧
      (groupby df c).countP (fun g => r ∈ g.2) = 1 := by
  constructor
  · rw [List.perm_iff_count]
    intro a
    have hmap : (groupby df c).map Prod.snd =
        (groupKeys df c).map (fun v => df.rows.filter (fun x => x.getCol c = v)) := by
      simp [groupby, List.map_map]
    rw [hmap, count_flatten_groups (fun x => x.getCol c) df.rows (groupKeys df c) a,
      groupKeys, List.count_dedup]
    by_cases hmem : a ∈ df.rows
    · rw [if_pos (List.mem_map_of_mem _ hmem), one_mul]
    · rw [List.count_eq_zero_of_not_mem hmem, Nat.mul_zero]
  · rw [groupby,
      countP_groups_mem (fun x => x.getCol c) df.rows (groupKeys df c) r hr,
      groupKeys, List.count_dedup, if_pos (List.mem_map_of_mem _ hr)]

/-- Witness for C8: a three-row dataframe grouped by `trend`, checked at its
first row. -/
theorem c8_groupby_partitions_witness :
    (((groupby
          ⟨["trend"],
            [⟨10, [("trend", "UP")]⟩, ⟨-5, [("trend", "DOWN")]⟩,
              ⟨0, [("trend", "UP")]⟩]⟩
          "trend").map Prod.snd).flatten).Perm
        (DataFrame.rows
          ⟨["trend"],
            [⟨10, [("trend", "UP")]⟩, ⟨-5, [("trend", "DOWN")]⟩,
              ⟨0, [("trend", "UP")]⟩]⟩) ∧
      (groupby
          ⟨["trend"],
            [⟨10, [("trend", "UP")]⟩, ⟨-5, [("trend", "DOWN")]⟩,
              ⟨0, [("trend", "UP")]⟩]⟩
          "trend").countP
        (fun g => (⟨10, [("trend", "UP")]⟩ : Row) ∈ g.2) = 1 :=
  c8_groupby_partitions
    ⟨["trend"],
      [⟨10, [("trend", "UP")]⟩, ⟨-5, [("trend", "DOWN")]⟩,
        ⟨0, [("trend", "UP")]⟩]⟩
    "trend" ⟨10, [("trend", "UP")]⟩ (List.mem_cons_self _ _)
